import Mathlib

/-!
Verification development for the churn-prediction pipeline in
`src/transformer.py`.

The pipeline is embedded shallowly:

* a pandas row of the transaction tables becomes a `Txn` record; a
  DataFrame becomes a `List Txn`;
* pandas `Series.unique()` (first-occurrence deduplication) becomes
  `uniqueList`;
* `prepare_data` (lines 43-80) becomes `prepare_data` below, built from
  `featureVector` and `category_distribution`;
* the sklearn `StandardScaler` used at lines 90-91 and 170 is an external
  library, so it is modelled from the specification (section 4.2): per-column
  mean / standard deviation, applied by `scalerTransform`;
* the torch model and training loop are embedded at the level the claims
  need: shape semantics of the layers for `ChurnTransformer.forward`
  (`churnTransformerForwardShape`), an explicit-aliasing model of the
  best-snapshot bookkeeping of `train_churn_model` (lines 114-157), a
  dropout-explicit forward pass for the determinism claim, and the
  `predict_churn` pipeline (lines 159-180).

Numeric values are exact rationals (`ℚ`); the empty-list mean convention
`0 / 0 = 0` of `ℚ` is never hit on the paths the theorems take, because the
iteration of `prepare_data` only ever visits clients that have at least one
period-1 row.
-/

/-- One row of a transaction table: the columns `prepare_data` reads
(`client_id`, `revenue`, `quantity`, `loss`, `product_id`,
`product_category`, `transaction_date`).  Identifiers, categories and dates
are coded as naturals, monetary amounts as rationals. -/
structure Txn where
  client_id : ℕ
  revenue : ℚ
  quantity : ℚ
  loss : ℚ
  product_id : ℕ
  product_category : ℕ
  transaction_date : ℕ
deriving DecidableEq, Repr

/-- Pandas `Series.unique()`: the distinct values in order of first
occurrence.  (Reversing, deduplicating keeping the last copy, and reversing
again keeps exactly the first occurrence of every value.)  `prepare_data`
also applies Python `set(...)` to such lists; only membership in the result
matters to the claims, and membership agrees. -/
def uniqueList (l : List ℕ) : List ℕ :=
  l.reverse.dedup.reverse

/-- Line 73-75 of the source: `client_data['product_category']
.value_counts(normalize=True).get(cat, 0)` — the fraction of the client's
transactions whose category is `cat` (`0` when the category never occurs,
which agrees with `count = 0`). -/
def category_distribution (client_data : List Txn) (cat : ℕ) : ℚ :=
  (((client_data.map (fun t => t.product_category)).count cat : ℕ) : ℚ) /
    (client_data.length : ℚ)

/-- Lines 58-77 of the source: the feature row built for one `client_id`
from its period-1 rows — the eight aggregate features of the
`feature_dict`, followed by one category-ratio entry for every category
observed anywhere in period 1 (`df1['product_category'].unique()` order). -/
def featureVector (df1 : List Txn) (c : ℕ) : List ℚ :=
  let client_data := df1.filter (fun t => t.client_id = c)
  [ (client_data.map (fun t => t.revenue)).sum,
    (client_data.map (fun t => t.revenue)).sum / (client_data.length : ℚ),
    (client_data.length : ℚ),
    ((uniqueList (client_data.map (fun t => t.product_id))).length : ℚ),
    ((uniqueList (client_data.map (fun t => t.product_category))).length : ℚ),
    (client_data.map (fun t => t.quantity)).sum / (client_data.length : ℚ),
    (client_data.map (fun t => t.loss)).sum,
    ((uniqueList (client_data.map (fun t => t.transaction_date))).length : ℚ) ]
  ++ (uniqueList (df1.map (fun t => t.product_category))).map
      (fun cat => category_distribution client_data cat)

/-- Lines 43-80 of the source.  `clients_period1` and `clients_period2` are
the client-id sets of the two tables, `churners` their difference, and the
loop over `clients_period1` emits one feature row (`featureVector`) and one
label (`1` for churners, `0` otherwise) per period-1 client. -/
def prepare_data (df1 df2 : List Txn) : List (List ℚ) × List ℕ :=
  let clients_period1 := uniqueList (df1.map (fun t => t.client_id))
  let clients_period2 := uniqueList (df2.map (fun t => t.client_id))
  let churners := clients_period1.filter (fun c => ¬ c ∈ clients_period2)
  (clients_period1.map (fun c => featureVector df1 c),
   clients_period1.map (fun c => if c ∈ churners then 1 else 0))

/-- Concrete transaction used by the witnesses: client 1 buys product 100
of category 7 on day 1 for revenue 10, quantity 2, loss 1. -/
def t1 : Txn := ⟨1, 10, 2, 1, 100, 7, 1⟩

/-- Concrete transaction used by the witnesses: client 1 buys product 101
of category 9 on day 2 for revenue 20, quantity 4, loss 0. -/
def t2 : Txn := ⟨1, 20, 4, 0, 101, 9, 2⟩

section Scaler

variable {K : Type} [LinearOrderedField K]

/-- Modelled from the spec: the sklearn `StandardScaler` used at lines
90-91 and 170 of the source is an external library.  Section 4.2 of the
specification describes its state as per-column mean and standard
deviation.  `colMean` is the mean of one column. -/
def colMean (col : List K) : K := col.sum / (col.length : K)

/-- Modelled from the spec: the population variance of one column, the
square of the standard deviation the scaler learns. -/
def colVar (col : List K) : K :=
  ((col.map (fun x => (x - colMean col) * (x - colMean col))).sum) / (col.length : K)

/-- A value `s` is the standard deviation of a column when it is
nonnegative and its square is the column's variance (this avoids a square
root, which the ambient field need not have). -/
def isStdDev (col : List K) (s : K) : Prop := 0 ≤ s ∧ s * s = colVar col

/-- Modelled from the spec: `transform` applied to one column with a
previously fitted mean `m` and standard deviation `s` — it standardizes
each entry without recomputing any statistic. -/
def stdTransform (m s : K) (col : List K) : List K :=
  col.map (fun x => (x - m) / s)

/-- Column `j` of a row-major matrix. -/
def matColumn (X : List (List K)) (j : ℕ) : List K :=
  X.map (fun row => row.getD j 0)

/-- Modelled from the spec: fitting the scaler on matrix `X` with `w`
columns stores, per column, the mean and the standard deviation
(`sqrtF` supplies the square root of the variance). -/
def scalerFit (sqrtF : K → K) (X : List (List K)) (w : ℕ) : List (K × K) :=
  (List.range w).map
    (fun j => (colMean (matColumn X j), sqrtF (colVar (matColumn X j))))

/-- Modelled from the spec: `transform` on a matrix applies the stored
per-column mean and standard deviation entrywise; it reads no statistic of
its argument. -/
def scalerTransform (st : List (K × K)) (X : List (List K)) : List (List K) :=
  X.map (fun row => List.zipWith (fun x ms => (x - ms.1) / ms.2) row st)

/-- Modelled from the spec: `fit_transform` computes the per-column
statistics of its argument and returns the standardized matrix. -/
def scalerFitTransform (sqrtF : K → K) (X : List (List K)) (w : ℕ) : List (List K) :=
  X.map (fun row => List.zipWith (fun x ms => (x - ms.1) / ms.2) row
    ((List.range w).map
      (fun j => (colMean (matColumn X j), sqrtF (colVar (matColumn X j))))))

end Scaler

/-! ### Training loop of `train_churn_model` (lines 114-157)

The loop is embedded generically in a parameter type `P` (the contents of
the model's parameter tensors), an epoch of optimizer updates
`trainStep : P → P` (lines 121-127), and an epoch validation loss
`valLoss : P → L` for a linearly ordered loss type `L` (lines 129-143).

The key point of the embedding is how line 149,
`best_model = model.state_dict().copy()`, is treated:
`model.state_dict()` returns a dict whose tensors share storage with the
module's live parameters, and `dict.copy()` is a shallow copy, so the
stored snapshot keeps aliasing the parameters that `optimizer.step()`
mutates in place.  `StateDictRef.modelCell` is that alias; dereferencing it
after the loop yields the current (final-epoch) parameters, which is what
line 156, `model.load_state_dict(best_model)`, then reinstalls. -/

/-- The only tensor storage a shallow `state_dict().copy()` can point at:
the model's own parameter cell. -/
inductive StateDictRef where
  | modelCell
deriving DecidableEq

/-- Reading the tensors behind a stored `state_dict` reference when the
model's parameter cell currently holds `params`. -/
def derefStateDict {P : Type} (params : P) : StateDictRef → P
  | StateDictRef.modelCell => params

/-- Line 147 of the source, `val_loss < best_val_loss`, with `none`
standing for the initial `float('inf')`. -/
def improves {L : Type} [LinearOrder L] (v : L) : Option L → Bool
  | none => true
  | some b => decide (v < b)

/-- The mutable state of the training loop: the live model parameters and
the `best_val_loss` / `best_model` bookkeeping of lines 114-115. -/
structure TrainState (P L : Type) where
  params : P
  best_val_loss : Option L
  best_model : Option StateDictRef

/-- One epoch (lines 117-149): train (mutating the parameters), measure
the validation loss, and on strict improvement snapshot a shallow copy of
the state dict — i.e. the alias, not the values. -/
def trainEpoch {P L : Type} [LinearOrder L] (trainStep : P → P) (valLoss : P → L)
    (s : TrainState P L) : TrainState P L :=
  let p := trainStep s.params
  let v := valLoss p
  if improves v s.best_val_loss then
    { params := p, best_val_loss := some v, best_model := some StateDictRef.modelCell }
  else
    { params := p, best_val_loss := s.best_val_loss, best_model := s.best_model }

/-- Lines 114-157: run the epoch loop from fresh state, then
`model.load_state_dict(best_model)` — which installs whatever the stored
reference currently holds — and return the model's parameters.  `none`
models the crash of loading a never-assigned `best_model`. -/
def train_churn_model_loop {P L : Type} [LinearOrder L] (trainStep : P → P)
    (valLoss : P → L) (epochs : ℕ) (p0 : P) : Option P :=
  let final := (trainEpoch trainStep valLoss)^[epochs]
    { params := p0, best_val_loss := none, best_model := none }
  final.best_model.map (fun r => derefStateDict final.params r)

/-- The state of the training loop as the specification words it: the best
snapshot is a value of the parameters, not a reference. -/
structure TrainStateSpec (P L : Type) where
  params : P
  best_val_loss : Option L
  best_model : Option P

/-- One epoch as the specification words it: on strict improvement the
current parameter values are snapshotted. -/
def trainEpochSpec {P L : Type} [LinearOrder L] (trainStep : P → P) (valLoss : P → L)
    (s : TrainStateSpec P L) : TrainStateSpec P L :=
  let p := trainStep s.params
  let v := valLoss p
  if improves v s.best_val_loss then
    { params := p, best_val_loss := some v, best_model := some p }
  else
    { params := p, best_val_loss := s.best_val_loss, best_model := s.best_model }

/-- The training loop as the specification words it: it returns the
parameter values snapshotted at the epoch of lowest observed validation
loss. -/
def train_churn_model_spec {P L : Type} [LinearOrder L] (trainStep : P → P)
    (valLoss : P → L) (epochs : ℕ) (p0 : P) : Option P :=
  ((trainEpochSpec trainStep valLoss)^[epochs]
    { params := p0, best_val_loss := none, best_model := none }).best_model

/-- The validation losses the loop observes: one per epoch, measured after
that epoch's training phase (the initial random parameters are never
evaluated). -/
def valLossesOverTraining {P L : Type} (trainStep : P → P) (valLoss : P → L)
    (epochs : ℕ) (p0 : P) : List L :=
  (List.range epochs).map (fun i => valLoss (trainStep^[i + 1] p0))

/-! ### Shape semantics of `ChurnTransformer.forward` (lines 20-41)

The model is assembled from framework layers, so their documented shape
behaviour is embedded: `nn.Linear(inF, outF)` acts on the last dimension
of a tensor of any rank and requires it to equal `inF`;
`nn.TransformerEncoder` preserves the shape of a rank-2 (unbatched
`(seq, d_model)`) or rank-3 (batched) input whose last dimension is
`d_model`; `Tensor.mean(dim = d)` removes dimension `d`.  `none` models a
runtime shape error. -/

/-- Shape behaviour of `nn.Linear (inF, outF)`. -/
def linearShape (inF outF : ℕ) (s : List ℕ) : Option (List ℕ) :=
  if s.getLast? = some inF then some (s.dropLast ++ [outF]) else none

/-- Shape behaviour of the `nn.TransformerEncoder` stack built at lines
26-34: shape-preserving on rank-2 or rank-3 input with last dimension
`d_model`. -/
def transformerEncoderShape (d_model : ℕ) (s : List ℕ) : Option (List ℕ) :=
  if (s.length = 2 ∨ s.length = 3) ∧ s.getLast? = some d_model then some s else none

/-- Shape behaviour of `Tensor.mean(dim = d)`. -/
def meanDimShape (d : ℕ) (s : List ℕ) : Option (List ℕ) :=
  if d < s.length then some (s.eraseIdx d) else none

/-- Lines 37-41 of the source, at the shape level: embedding to
`dim_feedforward`, the encoder stack, `x.mean(dim=1)`, and the final
classifier `nn.Linear(dim_feedforward, 2)`. -/
def churnTransformerForwardShape (input_dim dim_feedforward : ℕ)
    (s : List ℕ) : Option (List ℕ) :=
  (linearShape input_dim dim_feedforward s).bind
    (fun s1 => (transformerEncoderShape dim_feedforward s1).bind
      (fun s2 => (meanDimShape 1 s2).bind
        (fun s3 => linearShape dim_feedforward 2 s3)))

/-! ### Dropout and forward-pass determinism (C9)

The encoder internals (multi-head attention, feed-forward sublayer, layer
norms) are framework capabilities — section 4.4 of the specification lists
them without internals — so they enter the embedding as opaque functions
in an `EncoderLayerFns` record.  What decides determinism is dropout
(rate `d`, section 4.4): the framework's encoder layer applies dropout to
each sublayer output before the residual addition; in training mode every
element is independently dropped (zeroed) or kept and rescaled by
`1 / (1 - p)` according to fresh draws from the global RNG, while in
evaluation mode dropout is the identity.  The RNG is modelled as an
explicit stream of booleans that each training-mode invocation consumes
and threads out — exactly the hidden state that advances between two
repeated calls. -/

/-- Dropout on one element: kept elements are rescaled by `1 / (1 - p)`,
dropped elements become `0` (training-mode semantics). -/
def dropoutElem (p : ℚ) (keep : Bool) (x : ℚ) : ℚ :=
  if keep then x / (1 - p) else 0

/-- Dropout on a vector under a mask of keep decisions. -/
def dropoutVec (p : ℚ) (mask : List Bool) (v : List ℚ) : List ℚ :=
  List.zipWith (fun x keep => dropoutElem p keep x) v mask

/-- Elementwise sum, the residual addition of the encoder layer. -/
def addVec (u v : List ℚ) : List ℚ :=
  List.zipWith (fun a b => a + b) u v

/-- The framework-supplied sublayers of one
`nn.TransformerEncoderLayer`: self-attention, feed-forward and the two
layer norms, parameters already baked in. -/
structure EncoderLayerFns where
  attn : List ℚ → List ℚ
  ff : List ℚ → List ℚ
  norm1 : List ℚ → List ℚ
  norm2 : List ℚ → List ℚ

/-- One encoder layer on one length-1-sequence token: residual plus
dropped-out attention, norm, residual plus dropped-out feed-forward, norm.
In training mode the two dropout masks are drawn from the RNG stream and
the advanced stream is returned; in evaluation mode dropout is the
identity and the stream is untouched. -/
def encoderLayerFwd (L : EncoderLayerFns) (p : ℚ) (training : Bool)
    (x : List ℚ) (rng : List Bool) : List ℚ × List Bool :=
  if training then
    let a := L.attn x
    let m1 := rng.take a.length
    let rng1 := rng.drop a.length
    let y := L.norm1 (addVec x (dropoutVec p m1 a))
    let f := L.ff y
    let m2 := rng1.take f.length
    let rng2 := rng1.drop f.length
    (L.norm2 (addVec y (dropoutVec p m2 f)), rng2)
  else
    let y := L.norm1 (addVec x (L.attn x))
    (L.norm2 (addVec y (L.ff y)), rng)

/-- The whole `ChurnTransformer` of lines 20-41, one example at a time:
embedding projection, the encoder stack, mean pooling over the length-1
sequence (the identity on the single token), and the classifier head. -/
structure ChurnTransformerFns where
  embedding : List ℚ → List ℚ
  layers : List EncoderLayerFns
  classifier : List ℚ → List ℚ
  dropout : ℚ

/-- Lines 37-41 with the RNG explicit: one forward invocation consumes
RNG only through the training-mode dropout of its encoder layers. -/
def churnTransformerFwd (M : ChurnTransformerFns) (training : Bool)
    (x : List ℚ) (rng : List Bool) : List ℚ × List Bool :=
  let h := M.embedding x
  let hr := M.layers.foldl
    (fun acc L => encoderLayerFwd L M.dropout training acc.1 acc.2) (h, rng)
  (M.classifier hr.1, hr.2)

/-- Two invocations of `forward` with no training step in between: the
second call sees the RNG stream as the first call left it. -/
def invokeTwice (M : ChurnTransformerFns) (training : Bool) (x : List ℚ)
    (rng : List Bool) : List ℚ × List ℚ :=
  let o1 := churnTransformerFwd M training x rng
  (o1.1, (churnTransformerFwd M training x o1.2).1)

/-- An encoder layer whose framework sublayers are all the identity — a
legitimate parameter assignment of the layer functions. -/
def idLayer : EncoderLayerFns :=
  ⟨fun v => v, fun v => v, fun v => v, fun v => v⟩

/-- A concrete `ChurnTransformer` instance with identity sublayers, one
encoder layer and dropout rate `1 / 2`. -/
def probeModel : ChurnTransformerFns :=
  ⟨fun v => v, [idLayer], fun v => v, 1 / 2⟩

/-! ### `predict_churn` (lines 159-180)

The source's feature-preparation block is elided (`# ... (feature
preparation code similar to prepare_data function)` at line 167), leaving
`features = []`.  `predict_churn` embeds the function literally: the
feature list stays empty whatever `client_data` holds.
`predict_churn_prepared` is the spec-completed variant (section 4.6 of the
specification: the rows arrive already prepared and take the place of the
feature list).  Softmax over the two logits uses an abstract exponential
`expF`, assumed positive where a theorem needs it. -/

/-- Line 178, `torch.softmax(outputs, dim=1)` on one row of two logits. -/
def softmax2 {K : Type} [LinearOrderedField K] (expF : K → K) (z : K × K) : K × K :=
  (expF z.1 / (expF z.1 + expF z.2), expF z.2 / (expF z.1 + expF z.2))

/-- Lines 159-180 literally: `features = []` (the preparation block is
missing), scale, run the model row by row, softmax, keep column 1.  The
embedding is a pure function, so the `model.eval()` and `torch.no_grad()`
flags have no observable effect here; sklearn would in fact raise on the
empty feature list, and either way `client_data` is never read. -/
def predict_churn {K : Type} [LinearOrderedField K] {α : Type} (expF : K → K)
    (model : List K → K × K) (st : List (K × K)) (client_data : α) : List K :=
  let features : List (List K) := []
  let features_scaled := scalerTransform st features
  (features_scaled.map model).map (fun z => (softmax2 expF z).2)

/-- Modelled from the spec: `predict_churn` with the elided
feature-preparation completed per section 4.6 — the already-prepared rows
stand where the source's `features` list would be filled in. -/
def predict_churn_prepared {K : Type} [LinearOrderedField K] (expF : K → K)
    (model : List K → K × K) (st : List (K × K)) (rows : List (List K)) : List K :=
  let features_scaled := scalerTransform st rows
  (features_scaled.map model).map (fun z => (softmax2 expF z).2)

/-! ### Theorems -/

theorem mem_uniqueList {a : ℕ} {l : List ℕ} : a ∈ uniqueList l ↔ a ∈ l := by
  simp [uniqueList]

theorem nodup_uniqueList (l : List ℕ) : (uniqueList l).Nodup := by
  simp [uniqueList, List.nodup_dedup]

/-- Membership in the `churners` list computed by `prepare_data`: a client
id churns exactly when it occurs in the period-1 table and not in the
period-2 table. -/
theorem mem_churners_iff (df1 df2 : List Txn) (c : ℕ) :
    c ∈ (uniqueList (df1.map (fun t => t.client_id))).filter
        (fun c => ¬ c ∈ uniqueList (df2.map (fun t => t.client_id))) ↔
      c ∈ df1.map (fun t => t.client_id) ∧ ¬ c ∈ df2.map (fun t => t.client_id) := by
  simp only [List.mem_filter, decide_eq_true_eq, mem_uniqueList]

/-- C1: `prepare_data` labels exactly the clients of period 1: the label
vector is, entry by entry over the distinct period-1 client-ids, `1` when
the id does not occur in period 2 and `0` when it does; and the feature
matrix likewise has exactly one row per distinct period-1 client-id, so no
id absent from period 1 appears in the output. -/
theorem C1_prepare_data_labels (df1 df2 : List Txn) :
    (prepare_data df1 df2).2 =
      (uniqueList (df1.map (fun t => t.client_id))).map
        (fun c => if c ∈ df2.map (fun t => t.client_id) then 0 else 1) ∧
    (prepare_data df1 df2).1 =
      (uniqueList (df1.map (fun t => t.client_id))).map
        (fun c => featureVector df1 c) := by
  refine ⟨?_, rfl⟩
  apply List.map_congr_left
  intro c hc
  have hc1 : c ∈ df1.map (fun t => t.client_id) := mem_uniqueList.1 hc
  by_cases h2 : c ∈ df2.map (fun t => t.client_id)
  · rw [if_pos h2, if_neg]
    rw [mem_churners_iff]
    rintro ⟨-, hn⟩
    exact hn h2
  · rw [if_neg h2, if_pos]
    exact (mem_churners_iff df1 df2 c).2 ⟨hc1, h2⟩

/-- C4: every row of the feature matrix produced by one `prepare_data` call
has width `8 + (number of distinct product categories observed in
period 1)`; in particular all rows of one call have the same width. -/
theorem C4_feature_width (df1 df2 : List Txn) (row : List ℚ)
    (h : row ∈ (prepare_data df1 df2).1) :
    row.length = 8 + (uniqueList (df1.map (fun t => t.product_category))).length := by
  rcases List.mem_map.1 h with ⟨c, _, rfl⟩
  simp [featureVector]
  omega

/-- Witness for `C4_feature_width`: on the concrete two-transaction table
the produced row indeed has width `8 + 2`. -/
theorem C4_feature_width_witness :
    featureVector [t1, t2] 1 ∈ (prepare_data [t1, t2] []).1 ∧
    (featureVector [t1, t2] 1).length =
      8 + (uniqueList ([t1, t2].map (fun t => t.product_category))).length := by
  have hmem : featureVector [t1, t2] 1 ∈ (prepare_data [t1, t2] []).1 :=
    List.mem_map.2 ⟨1, by decide, rfl⟩
  exact ⟨hmem, C4_feature_width [t1, t2] [] _ hmem⟩

theorem sum_map_add_nat (l : List ℕ) (f g : ℕ → ℕ) :
    (l.map (fun x => f x + g x)).sum = (l.map f).sum + (l.map g).sum := by
  induction l with
  | nil => simp
  | cons a l ih => simp [ih]; omega

theorem indicator_sum_zero (v : ℕ) (cats : List ℕ) (h : ¬ v ∈ cats) :
    (cats.map (fun cat => if v = cat then (1 : ℕ) else 0)).sum = 0 := by
  induction cats with
  | nil => simp
  | cons a l ih =>
      have hva : ¬ v = a := fun hv => h (hv ▸ List.mem_cons_self a l)
      have hvl : ¬ v ∈ l := fun hv => h (List.mem_cons_of_mem a hv)
      simp [hva, ih hvl]

theorem indicator_sum_one (v : ℕ) (cats : List ℕ) (hnd : cats.Nodup)
    (hv : v ∈ cats) :
    (cats.map (fun cat => if v = cat then (1 : ℕ) else 0)).sum = 1 := by
  induction cats with
  | nil => simp at hv
  | cons a l ih =>
      rcases List.mem_cons.1 hv with hva | hvl
      · subst hva
        have hnotin : ¬ v ∈ l := (List.nodup_cons.1 hnd).1
        simp [indicator_sum_zero v l hnotin]
      · have hva : ¬ v = a := by
          rintro rfl
          exact (List.nodup_cons.1 hnd).1 hvl
        simp [hva, ih (List.nodup_cons.1 hnd).2 hvl]

/-- Summing the per-value counts of a list over a duplicate-free list of
values that covers it recovers the list's length. -/
theorem sum_count_eq_length (cats vals : List ℕ) (hnd : cats.Nodup)
    (hsub : ∀ v ∈ vals, v ∈ cats) :
    (cats.map (fun cat => vals.count cat)).sum = vals.length := by
  induction vals with
  | nil => simp
  | cons v vs ih =>
      have hv : v ∈ cats := hsub v (List.mem_cons_self v vs)
      have hsub' : ∀ x ∈ vs, x ∈ cats := fun x hx => hsub x (List.mem_cons_of_mem v hx)
      have hcons : (cats.map (fun cat => (v :: vs).count cat)).sum =
          (cats.map (fun cat => vs.count cat + if v = cat then 1 else 0)).sum := by
        apply congrArg
        apply List.map_congr_left
        intro cat _
        simp [List.count_cons, beq_iff_eq]
      rw [hcons, sum_map_add_nat, ih hsub', indicator_sum_one v cats hnd hv]
      simp

theorem sum_map_div_rat (l : List ℕ) (f : ℕ → ℚ) (c : ℚ) :
    (l.map (fun x => f x / c)).sum = (l.map f).sum / c := by
  induction l with
  | nil => simp
  | cons a l ih => simp [ih, add_div]

/-- The category-ratio entries of one client sum to the client's
transaction count divided by itself: over a duplicate-free category list
covering every category the client's rows mention, `value_counts(normalize
= True)` is a probability distribution. -/
theorem ratio_sum_eq_one (client_data : List Txn)
    (cs : List ℕ) (hnd : cs.Nodup)
    (hsub : ∀ t ∈ client_data, t.product_category ∈ cs)
    (hne : client_data ≠ []) :
    (cs.map (fun cat => category_distribution client_data cat)).sum = 1 := by
  have hlen : ((client_data.length : ℚ)) ≠ 0 := by
    have h0 : client_data.length ≠ 0 := by
      simpa [List.length_eq_zero] using hne
    exact_mod_cast h0
  have hsub' : ∀ v ∈ client_data.map (fun t => t.product_category), v ∈ cs := by
    intro v hv
    rcases List.mem_map.1 hv with ⟨t, ht, rfl⟩
    exact hsub t ht
  have hcast : (cs.map (fun cat =>
      (((client_data.map (fun t => t.product_category)).count cat : ℕ) : ℚ))).sum =
      (((cs.map (fun cat =>
        (client_data.map (fun t => t.product_category)).count cat)).sum : ℕ) : ℚ) := by
    rw [Nat.cast_list_sum, List.map_map]
    rfl
  calc (cs.map (fun cat => category_distribution client_data cat)).sum
      = (cs.map (fun cat =>
          (((client_data.map (fun t => t.product_category)).count cat : ℕ) : ℚ))).sum /
            (client_data.length : ℚ) := by
        rw [← sum_map_div_rat]
        rfl
    _ = (((cs.map (fun cat =>
          (client_data.map (fun t => t.product_category)).count cat)).sum : ℕ) : ℚ) /
            (client_data.length : ℚ) := by rw [hcast]
    _ = ((client_data.map (fun t => t.product_category)).length : ℚ) /
            (client_data.length : ℚ) := by
        rw [sum_count_eq_length cs _ hnd hsub']
    _ = 1 := by
        rw [List.length_map]
        exact div_self hlen

/-- C5: for every client row produced by `prepare_data`, the category-ratio
columns (the entries after the eight aggregates) form a normalized
distribution over the client's own period-1 transactions: they sum to `1`
exactly in `ℚ`, and a category observed in period 1 but absent from the
client's rows contributes exactly `0`. -/
theorem C5_category_ratio (df1 df2 : List Txn) (c : ℕ)
    (hc : c ∈ uniqueList (df1.map (fun t => t.client_id))) :
    featureVector df1 c ∈ (prepare_data df1 df2).1 ∧
    ((featureVector df1 c).drop 8).sum = 1 ∧
    ∀ cat, ¬ cat ∈ (df1.filter (fun t => t.client_id = c)).map
        (fun t => t.product_category) →
      category_distribution (df1.filter (fun t => t.client_id = c)) cat = 0 := by
  refine ⟨List.mem_map.2 ⟨c, hc, rfl⟩, ?_, ?_⟩
  · have hdrop : (featureVector df1 c).drop 8 =
        (uniqueList (df1.map (fun t => t.product_category))).map
          (fun cat => category_distribution (df1.filter (fun t => t.client_id = c)) cat) :=
      rfl
    rw [hdrop]
    apply ratio_sum_eq_one
    · exact nodup_uniqueList _
    · intro t ht
      exact mem_uniqueList.2 (List.mem_map.2 ⟨t, List.mem_of_mem_filter ht, rfl⟩)
    · rcases List.mem_map.1 (mem_uniqueList.1 hc) with ⟨t, ht, htc⟩
      have : t ∈ df1.filter (fun t => t.client_id = c) :=
        List.mem_filter.2 ⟨ht, by simp [htc]⟩
      exact List.ne_nil_of_mem this
  · intro cat hcat
    have hcount : (((df1.filter (fun t => t.client_id = c)).map
        (fun t => t.product_category)).count cat) = 0 :=
      List.count_eq_zero.2 hcat
    simp [category_distribution, hcount]

/-- Witness for `C5_category_ratio`: on the concrete two-transaction table
the client-1 row's two ratio entries sum to `1`. -/
theorem C5_category_ratio_witness :
    (1 ∈ uniqueList ([t1, t2].map (fun t => t.client_id))) ∧
    (featureVector [t1, t2] 1 ∈ (prepare_data [t1, t2] []).1 ∧
     ((featureVector [t1, t2] 1).drop 8).sum = 1 ∧
     ∀ cat, ¬ cat ∈ ([t1, t2].filter (fun t => t.client_id = 1)).map
         (fun t => t.product_category) →
       category_distribution ([t1, t2].filter (fun t => t.client_id = 1)) cat = 0) :=
  ⟨by decide, C5_category_ratio [t1, t2] [] 1 (by decide)⟩

section ScalerFacts

variable {K : Type} [LinearOrderedField K]

theorem sum_map_div_field {α : Type} (l : List α) (f : α → K) (c : K) :
    (l.map (fun x => f x / c)).sum = (l.map f).sum / c := by
  induction l with
  | nil => simp
  | cons a l ih => simp [ih, add_div]

theorem sum_map_sub_const (l : List K) (c : K) :
    (l.map (fun x => x - c)).sum = l.sum - (l.length : K) * c := by
  induction l with
  | nil => simp
  | cons a l ih =>
      simp only [List.map_cons, List.sum_cons, ih, List.length_cons]
      push_cast
      ring

/-- The standardized column has mean zero. -/
theorem stdTransform_mean (col : List K) (s : K) (hn : (col.length : K) ≠ 0) :
    colMean (stdTransform (colMean col) s col) = 0 := by
  have hsum : (stdTransform (colMean col) s col).sum = 0 := by
    have h1 : (stdTransform (colMean col) s col).sum =
        (col.map (fun x => x - colMean col)).sum / s := by
      simpa [stdTransform] using
        sum_map_div_field col (fun x => x - colMean col) s
    rw [h1, sum_map_sub_const, colMean]
    field_simp
  rw [colMean, hsum, zero_div]

/-- C6: transforming the exact column a scaler was fitted on yields a
column of mean `0` and standard deviation `1`, whenever the fitted
standard deviation is positive (equivalently, the column has nonzero
variance). -/
theorem C6_scaler_roundtrip (col : List K) (s : K)
    (hs : isStdDev col s) (hpos : 0 < s) :
    colMean (stdTransform (colMean col) s col) = 0 ∧
    isStdDev (stdTransform (colMean col) s col) 1 := by
  have hvarpos : 0 < colVar col := hs.2 ▸ mul_pos hpos hpos
  have hne : col ≠ [] := by
    rintro rfl
    simp [colVar] at hvarpos
  have hn : (col.length : K) ≠ 0 := by
    have h0 : col.length ≠ 0 := by
      simpa [List.length_eq_zero] using hne
    exact_mod_cast h0
  have hmean : colMean (stdTransform (colMean col) s col) = 0 :=
    stdTransform_mean col s hn
  refine ⟨hmean, zero_le_one, ?_⟩
  have hlen : ((stdTransform (colMean col) s col).length : K) = (col.length : K) := by
    simp [stdTransform]
  have hmap : (stdTransform (colMean col) s col).map
      (fun y => (y - colMean (stdTransform (colMean col) s col)) *
        (y - colMean (stdTransform (colMean col) s col))) =
      col.map (fun x =>
        ((x - colMean col) * (x - colMean col)) / (s * s)) := by
    rw [hmean]
    simp only [sub_zero, stdTransform, List.map_map]
    apply List.map_congr_left
    intro x _
    simp [Function.comp, div_mul_div_comm]
  have hS : (col.map (fun x => (x - colMean col) * (x - colMean col))).sum =
      colVar col * (col.length : K) := by
    rw [colVar]
    field_simp
  rw [colVar, hmap, hlen, sum_map_div_field, hS, hs.2]
  rw [one_mul, mul_comm (colVar col) ((col.length : K)), mul_div_assoc,
    div_self (ne_of_gt hvarpos), mul_one, div_self hn]

/-- Witness for `C6_scaler_roundtrip`: fitting on the column `[0, 2]`
(mean `1`, variance `1`, standard deviation `1`) and transforming it
yields `[-1, 1]`, of mean `0` and standard deviation `1`. -/
theorem C6_scaler_roundtrip_witness :
    (isStdDev [(0 : ℚ), 2] 1 ∧ (0 : ℚ) < 1) ∧
    (colMean (stdTransform (colMean [(0 : ℚ), 2]) 1 [(0 : ℚ), 2]) = 0 ∧
     isStdDev (stdTransform (colMean [(0 : ℚ), 2]) 1 [(0 : ℚ), 2]) 1) := by
  have hs : isStdDev [(0 : ℚ), 2] 1 := by
    constructor
    · norm_num
    · norm_num [colVar, colMean]
  exact ⟨⟨hs, one_pos⟩, C6_scaler_roundtrip [(0 : ℚ), 2] 1 hs one_pos⟩

/-- C8: `fit_transform` equals fitting followed by `transform` on the same
matrix, and `transform` reads only the fitted statistics: two fits that
agree make `transform` agree on every further matrix `M`. -/
theorem C8_transform_no_refit (sqrtF : K → K) (X M : List (List K)) (w : ℕ) :
    scalerFitTransform sqrtF X w = scalerTransform (scalerFit sqrtF X w) X ∧
    ∀ Y : List (List K), scalerFit sqrtF X w = scalerFit sqrtF Y w →
      scalerTransform (scalerFit sqrtF X w) M =
        scalerTransform (scalerFit sqrtF Y w) M :=
  ⟨rfl, fun Y h => by rw [h]⟩

/-- Witness for `C8_transform_no_refit`: the one-column matrices `[[2]]`
and `[[2], [2]]` fit to the same statistics, so `transform` agrees on the
new matrix `[[3]]`. -/
theorem C8_transform_no_refit_witness :
    (scalerFit (fun x : ℚ => x) [[2]] 1 = scalerFit (fun x : ℚ => x) [[2], [2]] 1) ∧
    (scalerFitTransform (fun x : ℚ => x) [[2]] 1 =
      scalerTransform (scalerFit (fun x : ℚ => x) [[2]] 1) [[2]] ∧
     scalerTransform (scalerFit (fun x : ℚ => x) [[2]] 1) [[3]] =
       scalerTransform (scalerFit (fun x : ℚ => x) [[2], [2]] 1) [[3]]) := by
  have h : scalerFit (fun x : ℚ => x) [[2]] 1 = scalerFit (fun x : ℚ => x) [[2], [2]] 1 := by
    norm_num [scalerFit, colMean, colVar, matColumn, List.range_succ]
  exact ⟨h, (C8_transform_no_refit (fun x : ℚ => x) [[2]] [[3]] 1).1,
    (C8_transform_no_refit (fun x : ℚ => x) [[2]] [[3]] 1).2 [[2], [2]] h⟩

end ScalerFacts

/-- C2 (code bug): a concrete two-epoch run in which the validation loss
goes `0` then `1`.  The code (`train_churn_model_loop`, with the shallow
`state_dict().copy()` aliasing) returns the final parameters `2`, whose
validation loss `1` is strictly worse than the observed best `0`; the
specification's deep-copy reading (`train_churn_model_spec`) would return
the epoch-0 parameters `1` with the lowest observed validation loss `0`. -/
theorem C2_best_snapshot_aliasing :
    train_churn_model_loop (fun p : ℤ => p + 1) (fun p : ℤ => (p - 1) * (p - 1)) 2 0
      = some 2 ∧
    valLossesOverTraining (fun p : ℤ => p + 1) (fun p : ℤ => (p - 1) * (p - 1)) 2 0
      = [0, 1] ∧
    train_churn_model_spec (fun p : ℤ => p + 1) (fun p : ℤ => (p - 1) * (p - 1)) 2 0
      = some 1 ∧
    ((2 : ℤ) - 1) * (2 - 1) = 1 ∧ (0 : ℤ) < 1 := by
  refine ⟨?_, ?_, ?_, by norm_num, by norm_num⟩
  · rfl
  · rfl
  · rfl

/-- C3 (code bug): the pipeline hands `forward` rank-2 batches
`(batch, input_dim)`; with the default `dim_feedforward = 128` a batch of
3 two-feature rows reaches the classifier as a rank-1 tensor of length 3
and fails (`none`), instead of producing the claimed `(3, 2)`; a batch of
exactly 128 rows survives by accident but yields shape `(2)`, not
`(128, 2)`; only the never-constructed rank-3 input `(3, 1, 2)` — a
length-1 sequence dimension — yields the claimed `(3, 2)`. -/
theorem C3_forward_shape_divergence :
    churnTransformerForwardShape 2 128 [3, 2] = none ∧
    churnTransformerForwardShape 2 128 [128, 2] = some [2] ∧
    churnTransformerForwardShape 2 128 [3, 1, 2] = some [3, 2] := by
  decide

/-- In evaluation mode one forward pass never reads the RNG stream: the
output is independent of it and the stream is returned unchanged. -/
theorem foldl_eval_rng_invariant (layers : List EncoderLayerFns) (p : ℚ)
    (h : List ℚ) (rng rng' : List Bool) :
    (layers.foldl (fun acc L => encoderLayerFwd L p false acc.1 acc.2) (h, rng)).1 =
      (layers.foldl (fun acc L => encoderLayerFwd L p false acc.1 acc.2) (h, rng')).1 ∧
    (layers.foldl (fun acc L => encoderLayerFwd L p false acc.1 acc.2) (h, rng)).2 = rng := by
  induction layers generalizing h rng rng' with
  | nil => exact ⟨rfl, rfl⟩
  | cons L ls ih =>
      simp only [List.foldl_cons]
      exact ih _ _ _

/-- C9 (amended): with the model in evaluation mode — as in the validation
phase and in `predict_churn` — the forward pass is a deterministic
function of parameters and input: it is independent of the RNG state, and
two invocations with no training step in between produce identical
outputs. -/
theorem C9_eval_forward_deterministic (M : ChurnTransformerFns) (x : List ℚ)
    (rng rng' : List Bool) :
    (churnTransformerFwd M false x rng).1 = (churnTransformerFwd M false x rng').1 ∧
    (invokeTwice M false x rng).1 = (invokeTwice M false x rng).2 := by
  constructor
  · exact congrArg M.classifier
      (foldl_eval_rng_invariant M.layers M.dropout (M.embedding x) rng rng').1
  · show (churnTransformerFwd M false x rng).1 =
      (churnTransformerFwd M false x (churnTransformerFwd M false x rng).2).1
    have h2 : (churnTransformerFwd M false x rng).2 = rng :=
      (foldl_eval_rng_invariant M.layers M.dropout (M.embedding x) rng rng).2
    rw [h2]

/-- C9 (counterexample to the claim as stated): in training mode — fixed
parameters `probeModel`, fixed input `[1]`, no training step in between —
the two invocations of `invokeTwice` return `[9]` and then `[1]`: the
dropout masks drawn from the advancing RNG stream differ, so the outputs
differ. -/
theorem C9_train_forward_nondeterministic :
    (invokeTwice probeModel true [1] [true, true, false, false]).1 ≠
      (invokeTwice probeModel true [1] [true, true, false, false]).2 := by
  have h1 : (invokeTwice probeModel true [1] [true, true, false, false]).1 = [9] := by
    norm_num [invokeTwice, churnTransformerFwd, encoderLayerFwd, probeModel, idLayer,
      dropoutVec, dropoutElem, addVec]
  have h2 : (invokeTwice probeModel true [1] [true, true, false, false]).2 = [1] := by
    norm_num [invokeTwice, churnTransformerFwd, encoderLayerFwd, probeModel, idLayer,
      dropoutVec, dropoutElem, addVec]
  rw [h1, h2]
  intro h
  have h9 : (9 : ℚ) = 1 := by injection h
  norm_num at h9

/-- C7: on already-prepared rows, `predict_churn` (spec-completed) scales
them, runs the model, softmaxes the logits and returns exactly one churn
probability per input row, each in `[0, 1]`. -/
theorem C7_predict_probabilities {K : Type} [LinearOrderedField K] (expF : K → K)
    (model : List K → K × K) (st : List (K × K)) (rows : List (List K))
    (hexp : ∀ x, 0 < expF x) (hne : rows ≠ []) :
    (predict_churn_prepared expF model st rows).length = rows.length ∧
    predict_churn_prepared expF model st rows ≠ [] ∧
    ∀ q ∈ predict_churn_prepared expF model st rows, 0 ≤ q ∧ q ≤ 1 := by
  have hlen : (predict_churn_prepared expF model st rows).length = rows.length := by
    simp [predict_churn_prepared, scalerTransform]
  refine ⟨hlen, ?_, ?_⟩
  · intro hnil
    apply hne
    have : rows.length = 0 := by rw [← hlen, hnil]; rfl
    exact List.length_eq_zero.1 this
  · intro q hq
    rcases List.mem_map.1 hq with ⟨z, _, rfl⟩
    have h1 : 0 < expF z.1 := hexp z.1
    have h2 : 0 < expF z.2 := hexp z.2
    have hsum : 0 < expF z.1 + expF z.2 := add_pos h1 h2
    constructor
    · exact le_of_lt (div_pos h2 hsum)
    · exact (div_le_one hsum).2 (le_add_of_nonneg_left (le_of_lt h1))

/-- Witness for `C7_predict_probabilities`: a single prepared row, the
constant-one exponential and a constant-logit model give the single churn
probability `1 / 2`. -/
theorem C7_predict_probabilities_witness :
    ((∀ x : ℚ, 0 < (1 : ℚ)) ∧ ([[(5 : ℚ)]] : List (List ℚ)) ≠ []) ∧
    ((predict_churn_prepared (fun _ : ℚ => 1) (fun _ => ((0 : ℚ), (0 : ℚ)))
        [((0 : ℚ), 1)] [[(5 : ℚ)]]).length = ([[(5 : ℚ)]] : List (List ℚ)).length ∧
     predict_churn_prepared (fun _ : ℚ => 1) (fun _ => ((0 : ℚ), (0 : ℚ)))
        [((0 : ℚ), 1)] [[(5 : ℚ)]] ≠ [] ∧
     ∀ q ∈ predict_churn_prepared (fun _ : ℚ => 1) (fun _ => ((0 : ℚ), (0 : ℚ)))
        [((0 : ℚ), 1)] [[(5 : ℚ)]], 0 ≤ q ∧ q ≤ 1) :=
  ⟨⟨fun _ => one_pos, by simp⟩,
    C7_predict_probabilities (fun _ : ℚ => 1) (fun _ => ((0 : ℚ), (0 : ℚ)))
      [((0 : ℚ), 1)] [[(5 : ℚ)]] (fun _ => one_pos) (by simp)⟩

/-- C10: `predict_churn` as written never reads `client_data` — its
feature list is the stub `[]` — so its result is identical for any two
`client_data` arguments of any type, and is in fact the empty probability
list. -/
theorem C10_predict_churn_ignores_client_data {K : Type} [LinearOrderedField K]
    {α : Type} (expF : K → K) (model : List K → K × K) (st : List (K × K))
    (cd cd' : α) :
    predict_churn expF model st cd = predict_churn expF model st cd' ∧
    predict_churn expF model st cd = [] :=
  ⟨rfl, rfl⟩

/-- One epoch always leaves the model parameters at `trainStep` of the
previous parameters, whichever branch the snapshot bookkeeping takes. -/
theorem trainEpoch_params {P L : Type} [LinearOrder L] (f : P → P) (v : P → L)
    (s : TrainState P L) : (trainEpoch f v s).params = f s.params := by
  simp only [trainEpoch]
  split <;> rfl

/-- After `k` epochs the model parameters are `trainStep` iterated `k`
times. -/
theorem iterate_trainEpoch_params {P L : Type} [LinearOrder L] (f : P → P)
    (v : P → L) (k : ℕ) (s : TrainState P L) :
    ((trainEpoch f v)^[k] s).params = f^[k] s.params := by
  induction k generalizing s with
  | zero => rfl
  | succ k ih =>
      calc ((trainEpoch f v)^[k + 1] s).params
          = ((trainEpoch f v)^[k] (trainEpoch f v s)).params := by
            rw [Function.iterate_succ_apply]
        _ = f^[k] (trainEpoch f v s).params := ih _
        _ = f^[k] (f s.params) := by rw [trainEpoch_params]
        _ = f^[k + 1] s.params := (Function.iterate_succ_apply f k s.params).symm

/-- Once `best_model` has been assigned it stays assigned through any
number of further epochs. -/
theorem iterate_best_model_isSome {P L : Type} [LinearOrder L] (f : P → P)
    (v : P → L) (k : ℕ) (s : TrainState P L) (h : s.best_model.isSome) :
    (((trainEpoch f v)^[k]) s).best_model.isSome := by
  induction k generalizing s with
  | zero => exact h
  | succ k ih =>
      rw [Function.iterate_succ_apply]
      apply ih
      simp only [trainEpoch]
      split
      · rfl
      · exact h

/-- The shallow-copy aliasing in general: for every training run of at
least one epoch, `train_churn_model_loop` returns exactly the final-epoch
parameters `trainStep^[epochs] p0` — whatever the observed validation
losses were — because the stored best snapshot aliases the live
parameters. -/
theorem train_loop_returns_final_params {P L : Type} [LinearOrder L]
    (f : P → P) (v : P → L) (epochs : ℕ) (p0 : P) (h : 1 ≤ epochs) :
    train_churn_model_loop f v epochs p0 = some (f^[epochs] p0) := by
  obtain ⟨k, rfl⟩ : ∃ k, epochs = k + 1 :=
    ⟨epochs - 1, (Nat.succ_pred_eq_of_pos h).symm⟩
  have h1 : (trainEpoch f v
      ({ params := p0, best_val_loss := none, best_model := none } :
        TrainState P L)).best_model.isSome := by
    simp only [trainEpoch]
    split
    · rfl
    · rename_i hcond
      simp [improves] at hcond
  have hsome : (((trainEpoch f v)^[k + 1])
      ({ params := p0, best_val_loss := none, best_model := none } :
        TrainState P L)).best_model.isSome := by
    rw [Function.iterate_succ_apply]
    exact iterate_best_model_isSome f v k _ h1
  obtain ⟨r, hr⟩ := Option.isSome_iff_exists.1 hsome
  have hparams : (((trainEpoch f v)^[k + 1])
      ({ params := p0, best_val_loss := none, best_model := none } :
        TrainState P L)).params = f^[k + 1] p0 :=
    iterate_trainEpoch_params f v (k + 1) _
  simp only [train_churn_model_loop]
  rw [hr, hparams]
  cases r
  rfl
